import Mathlib

/-!
Verification development for the card-batch generation pipeline
(`src/server/cardGenerator.ts`, second class variant, and the `part_001`
variant).  The TypeScript code is shallowly embedded: JS strings are Lean
`String`s (lists of Unicode code points), the filesystem is a finite map
from paths to nodes (file contents modelled as text whose bytes are the
UTF-8 encoding), and the async row loop is a structurally recursive fold
producing the output-directory state, the progress-event stream, the page
(rendering-context) count and the list of written artifact names.
Character-level primitives (`toLowerCase`, `trim`, NFD + combining-mark
removal, `toUpperCase`) are modelled for ASCII and the Latin-1 range,
which covers the Portuguese type/category vocabulary the pipeline
consumes.
-/

namespace CardsTrade

/-! ## JavaScript string primitives -/

/-- The JS whitespace set used by `String.prototype.trim` and `\s`. -/
def jsIsWs (c : Char) : Bool :=
  if c.toNat = 32 ∨ c.toNat = 9 ∨ c.toNat = 10 ∨ c.toNat = 11 ∨ c.toNat = 12 ∨
     c.toNat = 13 ∨ c.toNat = 0xa0 ∨ c.toNat = 0x1680 ∨
     (0x2000 ≤ c.toNat ∧ c.toNat ≤ 0x200a) ∨ c.toNat = 0x2028 ∨
     c.toNat = 0x2029 ∨ c.toNat = 0x202f ∨ c.toNat = 0x205f ∨
     c.toNat = 0x3000 ∨ c.toNat = 0xfeff
  then true else false

/-- Model of `String.prototype.trim`. -/
def jsTrim (s : String) : String :=
  String.mk (((s.data.dropWhile jsIsWs).reverse.dropWhile jsIsWs).reverse)

/-- Model of `toLowerCase` on one code point (ASCII and Latin-1, plus Ÿ). -/
def jsLowerChar (c : Char) : Char :=
  let n := c.toNat
  if 65 ≤ n ∧ n ≤ 90 then Char.ofNat (n + 32)
  else if (192 ≤ n ∧ n ≤ 222) ∧ n ≠ 215 then Char.ofNat (n + 32)
  else if n = 376 then Char.ofNat 255
  else c

/-- Model of `String.prototype.toLowerCase` (ASCII/Latin-1 coverage). -/
def jsLowerStr (s : String) : String := String.mk (s.data.map jsLowerChar)

/-- Model of `toUpperCase` on one code point; ß expands to "SS" as in JS. -/
def jsUpperChar (c : Char) : List Char :=
  let n := c.toNat
  if 97 ≤ n ∧ n ≤ 122 then [Char.ofNat (n - 32)]
  else if n = 223 then ['S', 'S']
  else if (224 ≤ n ∧ n ≤ 254) ∧ n ≠ 247 then [Char.ofNat (n - 32)]
  else if n = 255 then [Char.ofNat 376]
  else if n = 181 then [Char.ofNat 924]
  else [c]

/-- Model of `String.prototype.toUpperCase` (ASCII/Latin-1 coverage). -/
def jsUpperStr (s : String) : String := String.mk (s.data.flatMap jsUpperChar)

/-- Canonical (NFD) decomposition of the Latin-1 accented letters:
each maps to its base letter followed by one combining mark. -/
def nfdTable : List (Nat × (Nat × Nat)) :=
  [ (0xC0, (65, 0x300)), (0xC1, (65, 0x301)), (0xC2, (65, 0x302)),
    (0xC3, (65, 0x303)), (0xC4, (65, 0x308)), (0xC5, (65, 0x30a)),
    (0xC7, (67, 0x327)),
    (0xC8, (69, 0x300)), (0xC9, (69, 0x301)), (0xCA, (69, 0x302)),
    (0xCB, (69, 0x308)),
    (0xCC, (73, 0x300)), (0xCD, (73, 0x301)), (0xCE, (73, 0x302)),
    (0xCF, (73, 0x308)),
    (0xD1, (78, 0x303)),
    (0xD2, (79, 0x300)), (0xD3, (79, 0x301)), (0xD4, (79, 0x302)),
    (0xD5, (79, 0x303)), (0xD6, (79, 0x308)),
    (0xD9, (85, 0x300)), (0xDA, (85, 0x301)), (0xDB, (85, 0x302)),
    (0xDC, (85, 0x308)), (0xDD, (89, 0x301)),
    (0xE0, (97, 0x300)), (0xE1, (97, 0x301)), (0xE2, (97, 0x302)),
    (0xE3, (97, 0x303)), (0xE4, (97, 0x308)), (0xE5, (97, 0x30a)),
    (0xE7, (99, 0x327)),
    (0xE8, (101, 0x300)), (0xE9, (101, 0x301)), (0xEA, (101, 0x302)),
    (0xEB, (101, 0x308)),
    (0xEC, (105, 0x300)), (0xED, (105, 0x301)), (0xEE, (105, 0x302)),
    (0xEF, (105, 0x308)),
    (0xF1, (110, 0x303)),
    (0xF2, (111, 0x300)), (0xF3, (111, 0x301)), (0xF4, (111, 0x302)),
    (0xF5, (111, 0x303)), (0xF6, (111, 0x308)),
    (0xF9, (117, 0x300)), (0xFA, (117, 0x301)), (0xFB, (117, 0x302)),
    (0xFC, (117, 0x308)), (0xFD, (121, 0x301)), (0xFF, (121, 0x308)) ]

/-- Model of `normalize("NFD")` on one code point (identity outside the table). -/
def nfdChar (c : Char) : List Char :=
  match nfdTable.lookup c.toNat with
  | some (b, m) => [Char.ofNat b, Char.ofNat m]
  | none => [c]

/-- Is the code point a combining diacritical mark (U+0300–U+036F)? -/
def isCombiningMark (c : Char) : Bool :=
  if 0x300 ≤ c.toNat ∧ c.toNat ≤ 0x36f then true else false

/-- Model of `.normalize("NFD").replace(/[̀-ͯ]/g, "")` on a char list. -/
def stripMarksL (l : List Char) : List Char :=
  (l.flatMap nfdChar).filter (fun c => !isCombiningMark c)

/-- The normalisation pipeline of `normalizeType`:
`toLowerCase().trim().normalize("NFD").replace(/[̀-ͯ]/g, "")`. -/
def normKey (s : String) : String :=
  String.mk (stripMarksL (jsTrim (jsLowerStr s)).data)

/-- Contiguous-segment (substring) test on char lists. -/
def hasSeg (needle : List Char) : List Char → Bool
  | [] => needle.isEmpty
  | c :: t => needle.isPrefixOf (c :: t) || hasSeg needle t

/-- Model of `String.prototype.includes`. -/
def jsIncludes (s sub : String) : Bool := hasSeg sub.data s.data

/-- Model of `String.prototype.endsWith`. -/
def jsEndsWith (s suffix : String) : Bool := suffix.data.isSuffixOf s.data

/-- Model of `String.prototype.replace` with a plain-string pattern: first
occurrence only (structural recursion on the haystack). -/
def replaceFirstL (pat rep : List Char) : List Char → List Char
  | [] => []
  | c :: t =>
    if pat.isPrefixOf (c :: t) then rep ++ (c :: t).drop pat.length
    else c :: replaceFirstL pat rep t

/-- JS `s.replace(pat, rep)` for a string pattern (first occurrence;
an empty pattern prepends the replacement, as in JS). -/
def jsReplaceFirst (s pat rep : String) : String :=
  if pat.data.isEmpty then String.mk (rep.data ++ s.data)
  else String.mk (replaceFirstL pat.data rep.data s.data)

/-- Model of `String.prototype.replaceAll` for a non-empty plain-string pattern,
fuelled so that the definition is structurally recursive (the fuel equals
the haystack length, which suffices because every step consumes at least
one character). -/
def replaceAllAux (pat rep : List Char) : Nat → List Char → List Char
  | 0, l => l
  | _ + 1, [] => []
  | fuel + 1, c :: t =>
    if pat.isPrefixOf (c :: t) then
      rep ++ replaceAllAux pat rep fuel ((c :: t).drop pat.length)
    else c :: replaceAllAux pat rep fuel t

/-- JS `s.replaceAll(pat, rep)` (all non-overlapping occurrences,
left to right); identity for the empty pattern, which the pipeline never
uses. -/
def jsReplaceAll (s pat rep : String) : String :=
  if pat.data.isEmpty then s
  else String.mk (replaceAllAux pat.data rep.data s.data.length s.data)

/-- One pass of `.replace(/\s+/g, "_")`: each maximal whitespace run
collapses to a single underscore (`prevWs` remembers whether the previous
character belonged to a run). -/
def wsCollapse (prevWs : Bool) : List Char → List Char
  | [] => []
  | c :: t =>
    if jsIsWs c then
      if prevWs then wsCollapse true t else '_' :: wsCollapse true t
    else c :: wsCollapse false t

/-- Model of `.replace(/%/g, "")`. -/
def removeAllPercent (s : String) : String :=
  String.mk (s.data.filter (fun c => !(c = '%')))

/-! ## Paths, base64 and the filesystem model -/

/-- Model of `path.join(dir, name)`; `path.join(dir, "")` normalises to `dir`,
exactly as in Node. -/
def pathJoin (d f : String) : String := if f = "" then d else d ++ "/" ++ f

def OUTPUT_DIR : String := "output"
def TEMPLATES_DIR : String := "templates"
def LOGOS_DIR : String := "logos"
def SELOS_DIR : String := "selos"

/-- Model of `path.extname`: the extension (with dot) of the basename, empty for
dotfiles and extensionless names. -/
def extname (p : String) : String :=
  let revBase := p.data.reverse.takeWhile (fun c => !(c = '/'))
  if revBase.contains '.' then
    let extRev := revBase.takeWhile (fun c => !(c = '.'))
    if revBase.drop (extRev.length + 1) = [] then ""
    else String.mk ('.' :: extRev.reverse)
  else ""

/-- UTF-8 encoding of one code point. -/
def utf8Char (c : Char) : List Nat :=
  let n := c.toNat
  if n < 0x80 then [n]
  else if n < 0x800 then [0xc0 + n / 64, 0x80 + n % 64]
  else if n < 0x10000 then
    [0xe0 + n / 4096, 0x80 + (n / 64) % 64, 0x80 + n % 64]
  else
    [0xf0 + n / 262144, 0x80 + (n / 4096) % 64, 0x80 + (n / 64) % 64,
     0x80 + n % 64]

/-- The byte content of a file modelled as text. -/
def utf8Bytes (s : String) : List Nat := s.data.flatMap utf8Char

def b64Chars : List Char :=
  "ABCDEFGHIJKLMNOPQRSTUVWXYZabcdefghijklmnopqrstuvwxyz0123456789+/".data

def b64Char (n : Nat) : Char := b64Chars.getD n '='

/-- Standard base64 encoding with `=` padding. -/
def base64Encode : List Nat → List Char
  | [] => []
  | [a] => [b64Char (a / 4), b64Char (a % 4 * 16), '=', '=']
  | [a, b] =>
    [b64Char (a / 4), b64Char (a % 4 * 16 + b / 16), b64Char (b % 16 * 4), '=']
  | a :: b :: d :: rest =>
    b64Char (a / 4) :: b64Char (a % 4 * 16 + b / 16) ::
    b64Char (b % 16 * 4 + d / 64) :: b64Char (d % 64) :: base64Encode rest

/-- The inline-image string built by `imageToBase64`:
`data:image/EXT;base64,...` where EXT is the extension with its first dot
removed (`path.extname(p).replace(".", "")`). -/
def dataUrl (p content : String) : String :=
  "data:image/" ++ jsReplaceFirst (extname p) "." "" ++ ";base64," ++
    String.mk (base64Encode (utf8Bytes content))

/-- A filesystem node: a regular file (with text content) or a directory. -/
inductive FsNode
  | file (content : String)
  | dir
deriving DecidableEq

/-- The read-only stores (templates, logos, seals) as a finite path map. -/
structure Env where
  fs : List (String × FsNode)
deriving DecidableEq

def Env.lookup (env : Env) (p : String) : Option FsNode := env.fs.lookup p

/-- Model of `CardGenerator.imageToBase64` (cardGenerator.ts, second variant):
empty path or missing file gives `""`; a directory path passes the
`existsSync` guard and then `readFileSync` raises EISDIR. -/
def imageToBase64 (env : Env) (p : String) : Except String String :=
  if p = "" then Except.ok ""
  else
    match env.lookup p with
    | none => Except.ok ""
    | some FsNode.dir => Except.error "EISDIR"
    | some (FsNode.file content) => Except.ok (dataUrl p content)

instance : DecidableEq (Except String String) := fun a b =>
  match a, b with
  | Except.ok x, Except.ok y =>
    if h : x = y then isTrue (by rw [h]) else isFalse (by simp [h])
  | Except.error x, Except.error y =>
    if h : x = y then isTrue (by rw [h]) else isFalse (by simp [h])
  | Except.ok _, Except.error _ => isFalse (by simp)
  | Except.error _, Except.ok _ => isFalse (by simp)

/-! ## Data model -/

/-- One spreadsheet row (`CardData`); `sheet_to_json(sheet, \x7b defval: "" \x7d)`
defaults every missing cell to the empty string, and cell values are
modelled as their string coercions. Field order mirrors the interface at
cardGenerator.ts lines 15–29. -/
structure Row where
  ordem : String
  tipo : String
  texto : String
  valor : String
  complemento : String
  legal : String
  categoria : String
  logo : String
  segmento : String
  cupom : String
  selo : String
  uf : String
  urn : String
deriving DecidableEq

/-- A progress snapshot as emitted by the second cardGenerator.ts variant
(lines 355–359). -/
structure Progress where
  processed : Nat
  total : Nat
  percentage : Nat
deriving DecidableEq

/-- Model of `Math.round((processed / total) * 100)` as exact rational rounding,
half away from zero on nonnegative input: `⌊(100 p / t) + 1 / 2⌋`. -/
def jsRoundPct (p t : Nat) : Nat := (200 * p + t) / (2 * t)

/-- The snapshot emitted after the `processed`-th render of a run. -/
def mkEv (p total : Nat) : Progress := ⟨p, total, jsRoundPct p total⟩

/-! ## Type normaliser (all three variants) -/

/-- The standalone `normalizeType` (cardGenerator.ts lines 49–64, and
identically `part_001` lines 56–71): keyword containment in priority
order promo → cupom → queda, then an exact match on "bc". -/
def normalizeType (tipo : String) : String :=
  if tipo = "" then ""
  else
    let normalized := normKey tipo
    if jsIncludes normalized "promo" then "promocao"
    else if jsIncludes normalized "cupom" then "cupom"
    else if jsIncludes normalized "queda" then "queda"
    else if normalized = "bc" then "bc"
    else ""

namespace CardGenerator

/-- Model of `CardGenerator.normalizeType` (cardGenerator.ts lines 220–235): same
as the standalone function except that the last check is substring
containment of "bc", not an exact match. -/
def normalizeType (tipo : String) : String :=
  if tipo = "" then ""
  else
    let normalized := CardsTrade.normKey tipo
    if jsIncludes normalized "promo" then "promocao"
    else if jsIncludes normalized "cupom" then "cupom"
    else if jsIncludes normalized "queda" then "queda"
    else if jsIncludes normalized "bc" then "bc"
    else ""

end CardGenerator

/-! ## Per-row field computations (cardGenerator.ts, second variant) -/

/-- Model of `valorFinal` (lines 270–273): promotion values pass through, every
other type strips all percent signs (`replace(/%/g, "")`). -/
def valorFinal (tipo valor : String) : String :=
  if tipo = "promocao" then valor else removeAllPercent valor

/-- Model of `logoFile` (lines 275–278): trimmed logo reference, defaulting to
"blank.png" when absent or whitespace-only. -/
def logoFileName (row : Row) : String :=
  if jsTrim row.logo = "" then "blank.png" else jsTrim row.logo

/-- Model of `logoBase64` (lines 280–282). -/
def logoValue (env : Env) (row : Row) : Except String String :=
  imageToBase64 env (pathJoin LOGOS_DIR (logoFileName row))

/-- The seal-file lookup inside `seloBase64` (lines 284–295):
`row.selo.toLowerCase()` (no trim) against "nova" / "renovada", anything
else giving the empty file name. -/
def seloFileName (selo : String) : String :=
  if jsLowerStr selo = "nova" then "acaonova.png"
  else if jsLowerStr selo = "renovada" then "acaorenovada.png"
  else ""

/-- Model of `seloBase64` (lines 284–295): falsy seal gives `""` without touching
the store; otherwise `imageToBase64(path.join(SELOS_DIR, seloFile))` —
note that an unknown seal joins with the empty name, so the path is the
seals directory itself. -/
def seloValue (env : Env) (row : Row) : Except String String :=
  if row.selo = "" then Except.ok ""
  else imageToBase64 env (pathJoin SELOS_DIR (seloFileName row.selo))

/-- The ten `replaceAll` substitutions (lines 297–307), in source order. -/
def renderHtml (template : String) (row : Row) (tipo logoB64 seloB64 : String) :
    String :=
  let h := jsReplaceAll template "\x7b\x7bTEXTO\x7d\x7d" row.texto
  let h := jsReplaceAll h "\x7b\x7bVALOR\x7d\x7d" (valorFinal tipo row.valor)
  let h := jsReplaceAll h "\x7b\x7bCOMPLEMENTO\x7d\x7d" row.complemento
  let h := jsReplaceAll h "\x7b\x7bLEGAL\x7d\x7d" row.legal
  let h := jsReplaceAll h "\x7b\x7bSEGMENTO\x7d\x7d" row.segmento
  let h := jsReplaceAll h "\x7b\x7bCUPOM\x7d\x7d" row.cupom
  let h := jsReplaceAll h "\x7b\x7bUF\x7d\x7d"
    (if row.uf = "" then "" else "UF: " ++ row.uf)
  let h := jsReplaceAll h "\x7b\x7bURN\x7d\x7d"
    (if row.urn = "" then "" else "URN: " ++ row.urn)
  let h := jsReplaceAll h "\x7b\x7bLOGO\x7d\x7d" logoB64
  jsReplaceAll h "\x7b\x7bSELO\x7d\x7d" seloB64

/-- Model of `ordemFinal` (lines 320–323): the trimmed order cell, defaulting to
`String(processed + 1)`. -/
def ordemFinal (row : Row) (processed : Nat) : String :=
  if jsTrim row.ordem = "" then toString (processed + 1) else jsTrim row.ordem

/-- Is the char admitted by the category slug (`[a-z0-9_]`)? -/
def slugChar (c : Char) : Bool :=
  if (97 ≤ c.toNat ∧ c.toNat ≤ 122) ∨ (48 ≤ c.toNat ∧ c.toNat ≤ 57) ∨
     c.toNat = 95
  then true else false

/-- The category slug (lines 328–336): trim, lower-case, NFD + mark
strip, whitespace runs to `_`, drop everything outside `[a-z0-9_]`. -/
def slugify (s : String) : String :=
  String.mk
    ((wsCollapse false (stripMarksL (jsLowerStr (jsTrim s)).data)).filter
      slugChar)

/-- Model of `categoriaFinal` (lines 326–336): empty unless the trimmed category
cell is non-empty, in which case the slug. -/
def categoriaFinal (row : Row) : String :=
  if jsTrim row.categoria = "" then "" else slugify row.categoria

/-- Model of `pdfName` (lines 338–340): the category segment appears only when
the slug is non-empty. -/
def pdfName (row : Row) (processed : Nat) (tipo : String) : String :=
  if categoriaFinal row = "" then
    ordemFinal row processed ++ "_" ++ tipo ++ ".pdf"
  else
    ordemFinal row processed ++ "_" ++ tipo ++ "_" ++ categoriaFinal row ++
      ".pdf"

/-! ## The row loop and the run -/

/-- Outcome of one iteration of the `for (const row of rows)` loop. -/
inductive StepRes
  | skip
  | fail (e : String)
  | render (name : String)
deriving DecidableEq

/-- One loop iteration (lines 261–359), up to the point where the PDF
name is fixed: unrecognised type or missing template skips the row
(`continue`); a template path that is a directory, or a failing asset
read, raises and aborts the run; otherwise the row renders and produces
the artifact name. -/
def stepRow (env : Env) (row : Row) (processed : Nat) : StepRes :=
  if CardGenerator.normalizeType row.tipo = "" then StepRes.skip
  else
    match env.lookup (pathJoin TEMPLATES_DIR
        (CardGenerator.normalizeType row.tipo ++ ".html")) with
    | none => StepRes.skip
    | some FsNode.dir => StepRes.fail "EISDIR"
    | some (FsNode.file template) =>
      match logoValue env row, seloValue env row with
      | Except.error e, _ => StepRes.fail e
      | Except.ok _, Except.error e => StepRes.fail e
      | Except.ok logoB64, Except.ok seloB64 =>
        let _html := renderHtml template row
          (CardGenerator.normalizeType row.tipo) logoB64 seloB64
        StepRes.render (pdfName row processed
          (CardGenerator.normalizeType row.tipo))

/-- The observable outcome of a `generateCards` call: the returned value
or thrown error, the OUTPUT_DIR contents, the emitted progress events,
the number of rendering contexts opened, and the artifact names written
(in write order, duplicates kept). -/
structure RunOut where
  result : Except String String
  outDir : List String
  events : List Progress
  pages : Nat
  written : List String

/-- Writing a named file into a directory listing: the name appears once
(a second write overwrites in place). -/
def insertName (dir : List String) (n : String) : List String :=
  if n ∈ dir then dir else dir ++ [n]

/-- The row loop followed by archive creation (lines 261–376): each
rendered row opens a page, writes `pdfName` into OUTPUT_DIR, increments
`processed` and emits a snapshot with
`percentage = Math.round((processed / total) * 100)`; afterwards
`cards.zip` is created in OUTPUT_DIR. -/
def runRows (env : Env) (total : Nat) :
    List Row → Nat → List String → List Progress → Nat → List String → RunOut
  | [], _processed, dir, events, pages, written =>
    ⟨Except.ok (pathJoin OUTPUT_DIR "cards.zip"), insertName dir "cards.zip",
     events, pages, written⟩
  | row :: rest, processed, dir, events, pages, written =>
    match stepRow env row processed with
    | StepRes.skip => runRows env total rest processed dir events pages written
    | StepRes.fail e => ⟨Except.error e, dir, events, pages, written⟩
    | StepRes.render name =>
      runRows env total rest (processed + 1) (insertName dir name)
        (events ++ [mkEv (processed + 1) total]) (pages + 1) (written ++ [name])

/-- Model of `CardGenerator.generateCards` (cardGenerator.ts, second variant,
lines 244–377): the browser guard, the purge of stale `.pdf`/`.zip`
artifacts, `total = rows.length`, the row loop, and the archive. The
workbook parse is abstracted to the row list it yields. -/
def generateCards (env : Env) (browserReady : Bool) (dirInit : List String)
    (rows : List Row) : RunOut :=
  match browserReady with
  | false => ⟨Except.error "Browser not initialized", dirInit, [], 0, []⟩
  | true =>
    let dir0 := dirInit.filter
      (fun f => !(jsEndsWith f ".pdf" || jsEndsWith f ".zip"))
    runRows env rows.length rows 0 dir0 [] 0 []

/-- The archive entries: every `.pdf` file found in OUTPUT_DIR after the
loop (lines 368–372). -/
def zipEntries (out : RunOut) : List String :=
  out.outDir.filter (fun f => jsEndsWith f ".pdf")

/-- A row the loop skips with `continue`: unrecognised type or no
template file at the expected path. -/
def rowSkipped (env : Env) (row : Row) : Prop :=
  CardGenerator.normalizeType row.tipo = "" ∨
    (env.lookup (pathJoin TEMPLATES_DIR
      (CardGenerator.normalizeType row.tipo ++ ".html"))) = none

instance (env : Env) (row : Row) : Decidable (rowSkipped env row) := by
  unfold rowSkipped; infer_instance

/-- A row that renders successfully: recognised type, template file
present, and both asset reads return without raising. -/
def rowRenders (env : Env) (row : Row) : Bool :=
  (!(CardGenerator.normalizeType row.tipo = "" : Bool)) &&
  (match env.lookup (pathJoin TEMPLATES_DIR
      (CardGenerator.normalizeType row.tipo ++ ".html")) with
   | some (FsNode.file _) => true
   | _ => false) &&
  (match logoValue env row with
   | Except.ok _ => true
   | _ => false) &&
  (match seloValue env row with
   | Except.ok _ => true
   | _ => false)

/-- The gate the spec describes for inclusion in `total`: normalised
type non-empty and a matching template file on disk. -/
def renderableType (env : Env) (row : Row) : Bool :=
  let tipo := CardGenerator.normalizeType row.tipo
  (!(tipo = "" : Bool)) &&
  (env.lookup (pathJoin TEMPLATES_DIR (tipo ++ ".html"))).isSome

/-! ## The part_001 variant -/

namespace Part001

/-- Model of `upper` (part_001 lines 46–47): `String(v ?? "").toUpperCase().trim()`. -/
def upper (v : String) : String := jsTrim (jsUpperStr v)

/-- JS `Number(...)` on a trimmed decimal literal with optional sign,
fraction and exponent; the empty string is 0 and anything else is NaN
(`none`). The result is an exact rational represented as a pair
`(m, d)` denoting `m / 10 ^ d`. Hex/binary/octal literals and
`Infinity` are outside the vocabulary of spreadsheet value cells and map
to `none`. -/
def digitsVal (l : List Char) : Nat :=
  l.foldl (fun a c => a * 10 + (c.toNat - 48)) 0

def allDigits (l : List Char) : Bool :=
  l.all (fun c => if 48 ≤ c.toNat ∧ c.toNat ≤ 57 then true else false)

def parseMantissa (l : List Char) : Option (Nat × Nat) :=
  if l.contains '.' then
    let ip := l.takeWhile (fun c => !(c = '.'))
    let fp := (l.dropWhile (fun c => !(c = '.'))).drop 1
    if allDigits ip && allDigits fp && !(ip = [] ∧ fp = [] : Bool) &&
       !fp.contains '.' then
      some (digitsVal ip * 10 ^ fp.length + digitsVal fp, fp.length)
    else none
  else if allDigits l && !l.isEmpty then some (digitsVal l, 0)
  else none

def parseSignedMantissa (l : List Char) : Option (Int × Nat) :=
  match l with
  | '+' :: r => (parseMantissa r).map (fun p => ((p.1 : Int), p.2))
  | '-' :: r => (parseMantissa r).map (fun p => (-(p.1 : Int), p.2))
  | _ => (parseMantissa l).map (fun p => ((p.1 : Int), p.2))

def parseExpDigits (l : List Char) : Option Int :=
  match l with
  | '+' :: r => if allDigits r && !r.isEmpty then some (digitsVal r) else none
  | '-' :: r =>
    if allDigits r && !r.isEmpty then some (-(digitsVal r : Int)) else none
  | _ => if allDigits l && !l.isEmpty then some (digitsVal l) else none

def applyExp (m : Int) (d : Nat) (e : Int) : Int × Nat :=
  if 0 ≤ e then (m * (10 : Int) ^ e.toNat, d) else (m, d + (-e).toNat)

def jsNumber (s : String) : Option (Int × Nat) :=
  let t := (jsTrim s).data
  if t = [] then some (0, 0)
  else
    let mantPart := t.takeWhile (fun c => !(c = 'e' ∨ c = 'E'))
    let rest := t.drop mantPart.length
    match rest with
    | [] => parseSignedMantissa mantPart
    | _ :: expPart =>
      match parseSignedMantissa mantPart, parseExpDigits expPart with
      | some (m, d), some e => some (applyExp m d e)
      | _, _ => none

/-- Model of `String(Number(num.toFixed(2)))` for the non-integer `m / 10 ^ d`:
round to two decimals (half away from zero) and print without trailing
zeros. -/
def fixed2String (m : Int) (d : Nat) : String :=
  let scaledAbs := (2 * (m.natAbs * 100) + 10 ^ d) / (2 * 10 ^ d)
  let sign := if m < 0 then "-" else ""
  if scaledAbs % 100 = 0 then sign ++ toString (scaledAbs / 100)
  else if scaledAbs % 10 = 0 then
    sign ++ toString (scaledAbs / 100) ++ "." ++ toString (scaledAbs / 10 % 10)
  else if scaledAbs % 100 < 10 then
    sign ++ toString (scaledAbs / 100) ++ ".0" ++ toString (scaledAbs % 100)
  else sign ++ toString (scaledAbs / 100) ++ "." ++ toString (scaledAbs % 100)

/-- Model of `formatPercentage` (part_001 lines 73–86): numeric values in (0, 1)
scale by 100; integers print plainly, other numbers via `toFixed(2)`;
non-numeric values strip only the FIRST percent sign and trim. -/
def formatPercentage (valor : String) : String :=
  if valor = "" then ""
  else
    match jsNumber valor with
    | some (m, d) =>
      let p : Int × Nat :=
        if 0 < m ∧ m < (10 : Int) ^ d then
          if 2 ≤ d then (m, d - 2) else (m * (10 : Int) ^ (2 - d), 0)
        else (m, d)
      if p.1 % (10 : Int) ^ p.2 = 0 then toString (p.1 / (10 : Int) ^ p.2)
      else fixed2String p.1 p.2
    | none => jsTrim (jsReplaceFirst valor "%" "")

/-- Model of `valorFinal` (part_001 lines 145–148): promotion values are
upper-cased and trimmed, all other types go through `formatPercentage`. -/
def valorFinal (tipo valor : String) : String :=
  if tipo = "promocao" then upper valor else formatPercentage valor

/-- Model of `pdfName` (part_001 lines 170–174): always three segments,
`{ordem || processed + 1}_{TIPO.toUpperCase()}_{upper(categoria)}.pdf`. -/
def pdfName (row : Row) (processed : Nat) (tipo : String) : String :=
  (if row.ordem = "" then toString (processed + 1) else row.ordem) ++ "_" ++
    jsUpperStr tipo ++ "_" ++ upper row.categoria ++ ".pdf"

end Part001

/-! ## Concrete fixtures (used by witnesses and counterexamples) -/

/-- A store with the cupom template and the protected blank logo. -/
def envBase : Env :=
  ⟨[("templates/cupom.html", FsNode.file "<img src=\"\x7b\x7bLOGO\x7d\x7d\">"),
    ("logos/blank.png", FsNode.file "B")]⟩

/-- The same store with the seals directory also present. -/
def envSelos : Env :=
  ⟨[("templates/cupom.html", FsNode.file "<img src=\"\x7b\x7bLOGO\x7d\x7d\">"),
    ("logos/blank.png", FsNode.file "B"),
    ("selos", FsNode.dir)]⟩

/-- Field order: ordem, tipo, texto, valor, complemento, legal,
categoria, logo, segmento, cupom, selo, uf, urn. -/
def rowCupom : Row := ⟨"", "CUPOM", "", "", "", "", "", "", "", "", "", "", ""⟩

/-- A row with an unrecognised type: inert for the loop. -/
def rowUnknownType : Row :=
  ⟨"", "x", "", "", "", "", "", "", "", "", "", "", ""⟩

/-- A cupom row with an explicit order cell. -/
def rowOrdem7 : Row := ⟨"7", "cupom", "", "", "", "", "", "", "", "", "", "", ""⟩

/-- A cupom row referencing a logo file absent from the store. -/
def rowMissingLogo : Row :=
  ⟨"", "cupom", "", "", "", "", "", "missing.png", "", "", "", "", ""⟩

/-- A cupom row with a seal designator that is neither "nova" nor
"renovada". -/
def rowSeloOther : Row :=
  ⟨"", "cupom", "", "", "", "", "", "", "", "", "x", "", ""⟩

/-! ## Spec-side definitions and claim statements -/

/-- The classifier exactly as the claim words it (refinement comparison
only — not drawn from the source): substring containment in the order
promotion-keyword, coupon-keyword, price-drop-keyword, cashback-keyword,
then exact-match "bc", over the same lower/trim/NFD-strip pipeline. -/
def claimNormalizeType (tipo : String) : String :=
  if tipo = "" then ""
  else
    let n := normKey tipo
    if jsIncludes n "promo" then "promocao"
    else if jsIncludes n "cupom" then "cupom"
    else if jsIncludes n "queda" then "queda"
    else if jsIncludes n "cashback" then "cashback"
    else if n = "bc" then "bc"
    else ""

/-- The keyword/result priority table the normalisers actually implement. -/
def keywordTable : List (String × String) :=
  [("promo", "promocao"), ("cupom", "cupom"), ("queda", "queda")]

/-- First-match classification over `keywordTable`, with the "bc"
fallback either by substring (`bcSub = true`, the class method) or by
exact match (`bcSub = false`, the standalone function and part_001). -/
def priorityClassify (n : String) (bcSub : Bool) : String :=
  match keywordTable.find? (fun kr => jsIncludes n kr.1) with
  | some kr => kr.2
  | none =>
    if (bcSub && jsIncludes n "bc") || (!bcSub && (n = "bc" : Bool)) then "bc"
    else ""

/-- Claim C1 as stated: every broadcast snapshot's `total` equals the
count of rows whose normalised type has a matching template file. -/
def claimC1Stated : Prop :=
  ∀ (env : Env) (d : List String) (rows : List Row),
    ∀ e ∈ (generateCards env true d rows).events,
      e.total = (rows.filter (renderableType env)).length

/-- Claim C3 as stated: both normalisers coincide with the claim's
priority classifier (which has a cashback-keyword step before the exact
"bc" match). -/
def claimC3Stated : Prop :=
  ∀ s : String,
    normalizeType s = claimNormalizeType s ∧
    CardGenerator.normalizeType s = claimNormalizeType s

/-- Claim C4 as stated: an empty or non-resolving logo reference always
substitutes the blank placeholder asset. -/
def claimC4Stated : Prop :=
  ∀ (env : Env) (row : Row),
    (jsTrim row.logo = "" ∨
      (env.lookup (pathJoin LOGOS_DIR (jsTrim row.logo))).isNone) →
    logoValue env row = imageToBase64 env (pathJoin LOGOS_DIR "blank.png")

/-- Claim C5 as stated, over both variants: promotion values pass
through unmodified, every other type loses every percent sign. -/
def claimC5Stated : Prop :=
  ∀ tipo valor : String,
    (tipo = "promocao" →
      valorFinal tipo valor = valor ∧ Part001.valorFinal tipo valor = valor) ∧
    (tipo ≠ "promocao" →
      '%' ∉ (valorFinal tipo valor).data ∧
      '%' ∉ (Part001.valorFinal tipo valor).data)

/-- Claim C6 as stated, at its own concrete instance: a first "CUPOM"
row with empty category yields `1_cupom_sem-categoria.pdf`. -/
def claimC6Stated : Prop :=
  ∀ env : Env, rowRenders env rowCupom = true →
    (generateCards env true [] [rowCupom]).written
      = ["1_cupom_sem-categoria.pdf"]

/-- Claim C7 as stated: a completed run's archive has exactly one entry
per successfully rendered row. -/
def claimC7Stated : Prop :=
  ∀ (env : Env) (d : List String) (rows : List Row),
    (generateCards env true d rows).result.isOk = true →
    (zipEntries (generateCards env true d rows)).length
      = (generateCards env true d rows).written.length

/-- Claim C8 as stated: a run over zero rows does not report a plain
success carrying the archive path. -/
def claimC8Stated : Prop :=
  ∀ (env : Env) (d : List String),
    (generateCards env true d ([] : List Row)).result
      ≠ Except.ok (pathJoin OUTPUT_DIR "cards.zip")

/-! ## Supporting lemmas -/

theorem pathJoin_ne_empty (d x : String) (hd : d ≠ "") : pathJoin d x ≠ "" := by
  unfold pathJoin
  split
  · exact hd
  · intro h
    have h2 : '/' ∈ (d ++ "/" ++ x).data := by
      simp [String.data_append]
    rw [h] at h2
    simp at h2

theorem jsEndsWith_append_self (s t : String) : jsEndsWith (s ++ t) t = true := by
  unfold jsEndsWith
  rw [List.isSuffixOf_iff_suffix, String.data_append]
  exact List.suffix_append s.data t.data

theorem endsPdf_pdfName (row : Row) (p : Nat) (tipo : String) :
    jsEndsWith (pdfName row p tipo) ".pdf" = true := by
  unfold pdfName
  split <;> exact jsEndsWith_append_self _ _

theorem mem_insertName {l : List String} {n a : String} :
    a ∈ insertName l n ↔ a ∈ l ∨ a = n := by
  unfold insertName
  split
  · next h => exact ⟨Or.inl, fun o => o.elim id (fun e => e ▸ h)⟩
  · simp

theorem mem_insertName_left {l : List String} {n a : String} (h : a ∈ l) :
    a ∈ insertName l n := mem_insertName.mpr (Or.inl h)

theorem mem_insertName_self {l : List String} {n : String} :
    n ∈ insertName l n := mem_insertName.mpr (Or.inr rfl)

theorem insertName_nodup {l : List String} {n : String} (h : l.Nodup) :
    (insertName l n).Nodup := by
  unfold insertName
  split
  · exact h
  · next hn =>
    rw [List.nodup_append]
    refine ⟨h, List.nodup_singleton n, ?_⟩
    intro a ha hb
    simp only [List.mem_singleton] at hb
    exact hn (hb ▸ ha)

theorem stepRow_skip_of {env : Env} {row : Row} (p : Nat)
    (hs : rowSkipped env row) : stepRow env row p = StepRes.skip := by
  unfold stepRow
  rcases hs with h1 | h2
  · simp [h1]
  · rw [h2]
    split <;> rfl

theorem stepRow_render_of {env : Env} {row : Row} (p : Nat)
    (h : rowRenders env row = true) :
    stepRow env row p
      = StepRes.render (pdfName row p (CardGenerator.normalizeType row.tipo)) := by
  unfold rowRenders at h
  simp only [Bool.and_eq_true, Bool.not_eq_true', decide_eq_false_iff_not] at h
  obtain ⟨⟨⟨ht, htm⟩, hlg⟩, hsl⟩ := h
  unfold stepRow
  rw [if_neg ht]
  cases hl : env.lookup (pathJoin TEMPLATES_DIR
      (CardGenerator.normalizeType row.tipo ++ ".html")) with
  | none => rw [hl] at htm; simp at htm
  | some node =>
    cases node with
    | dir => rw [hl] at htm; simp at htm
    | file tpl =>
      cases hv : logoValue env row with
      | error e => rw [hv] at hlg; simp at hlg
      | ok lv =>
        cases hv2 : seloValue env row with
        | error e => rw [hv2] at hsl; simp at hsl
        | ok sv => rfl

theorem stepRow_render_eq {env : Env} {row : Row} {p : Nat} {name : String}
    (h : stepRow env row p = StepRes.render name) :
    name = pdfName row p (CardGenerator.normalizeType row.tipo) := by
  unfold stepRow at h
  split at h
  · exact absurd h (by simp)
  · split at h
    · exact absurd h (by simp)
    · exact absurd h (by simp)
    · split at h
      · exact absurd h (by simp)
      · exact absurd h (by simp)
      · simp only [StepRes.render.injEq] at h
        exact h.symm

theorem runRows_events_spec (env : Env) (total : Nat) :
    ∀ (rows : List Row) (processed : Nat) (dir : List String)
      (events : List Progress) (pages : Nat) (written : List String),
      ∃ k, k ≤ rows.length ∧
        (runRows env total rows processed dir events pages written).events
          = events
            ++ (List.range' (processed + 1) k).map (fun q => mkEv q total)
  | [], processed, dir, events, pages, written => ⟨0, by simp [runRows]⟩
  | row :: rest, processed, dir, events, pages, written => by
    rw [runRows]
    rcases h : stepRow env row processed with _ | e | name
    · obtain ⟨k, hk, he⟩ :=
        runRows_events_spec env total rest processed dir events pages written
      exact ⟨k, Nat.le_succ_of_le hk, he⟩
    · exact ⟨0, by simp⟩
    · obtain ⟨k, hk, he⟩ :=
        runRows_events_spec env total rest (processed + 1) (insertName dir name)
          (events ++ [mkEv (processed + 1) total]) (pages + 1)
          (written ++ [name])
      refine ⟨k + 1, by simpa using hk, ?_⟩
      rw [he, List.range'_succ (processed + 1) k 1, List.map_cons,
        List.append_assoc, List.singleton_append]

theorem runRows_success (env : Env) (total : Nat) :
    ∀ (rows : List Row), (∀ r ∈ rows, rowRenders env r = true) →
      ∀ (processed : Nat) (dir : List String) (events : List Progress)
        (pages : Nat) (written : List String),
        (runRows env total rows processed dir events pages written).events
          = events
            ++ (List.range' (processed + 1) rows.length).map
                (fun q => mkEv q total) ∧
        (runRows env total rows processed dir events pages written).result
          = Except.ok (pathJoin OUTPUT_DIR "cards.zip")
  | [], _, processed, dir, events, pages, written => by simp [runRows]
  | row :: rest, hall, processed, dir, events, pages, written => by
    rw [runRows, stepRow_render_of processed (hall row (by simp))]
    obtain ⟨he, hr⟩ := runRows_success env total rest
      (fun r hr => hall r (by simp [hr])) (processed + 1)
      (insertName dir (pdfName row processed (CardGenerator.normalizeType row.tipo)))
      (events ++ [mkEv (processed + 1) total]) (pages + 1)
      (written ++ [pdfName row processed (CardGenerator.normalizeType row.tipo)])
    refine ⟨?_, hr⟩
    rw [he, List.length_cons, List.range'_succ (processed + 1) rest.length 1,
      List.map_cons, List.append_assoc, List.singleton_append]

theorem jsRoundPct_self {n : Nat} (h : 1 ≤ n) : jsRoundPct n n = 100 := by
  unfold jsRoundPct
  exact Nat.div_eq_of_lt_le (by nlinarith) (by nlinarith)

theorem runRows_all_skip (env : Env) (total : Nat) :
    ∀ (rows : List Row), (∀ r ∈ rows, rowSkipped env r) →
      ∀ (p : Nat) (dir : List String) (ev : List Progress) (pg : Nat)
        (w : List String),
        runRows env total rows p dir ev pg w
          = ⟨Except.ok (pathJoin OUTPUT_DIR "cards.zip"),
             insertName dir "cards.zip", ev, pg, w⟩
  | [], _, p, dir, ev, pg, w => by rw [runRows]
  | row :: rest, hall, p, dir, ev, pg, w => by
    rw [runRows, stepRow_skip_of p (hall row (by simp))]
    exact runRows_all_skip env total rest (fun r hr => hall r (by simp [hr])) p dir ev pg w

theorem runRows_zip_inv (env : Env) (total : Nat) :
    ∀ (rows : List Row) (processed : Nat) (dir : List String)
      (events : List Progress) (pages : Nat) (written : List String),
      dir.Nodup →
      (∀ f ∈ dir, jsEndsWith f ".pdf" = true → f ∈ written) →
      (∀ n ∈ written, n ∈ dir) →
      (∀ n ∈ written, jsEndsWith n ".pdf" = true) →
      (runRows env total rows processed dir events pages written).outDir.Nodup ∧
      (∀ f ∈ (runRows env total rows processed dir events pages written).outDir,
        jsEndsWith f ".pdf" = true →
        f ∈ (runRows env total rows processed dir events pages written).written) ∧
      (∀ n ∈ (runRows env total rows processed dir events pages written).written,
        n ∈ (runRows env total rows processed dir events pages written).outDir) ∧
      (∀ n ∈ (runRows env total rows processed dir events pages written).written,
        jsEndsWith n ".pdf" = true)
  | [], processed, dir, events, pages, written => by
    intro hnd hpdf hsub hw
    rw [runRows]
    refine ⟨insertName_nodup hnd, ?_, fun n hn => mem_insertName_left (hsub n hn), hw⟩
    intro f hf hpf
    rcases mem_insertName.mp hf with hfd | hfz
    · exact hpdf f hfd hpf
    · rw [hfz] at hpf
      exact absurd hpf (by decide)
  | row :: rest, processed, dir, events, pages, written => by
    intro hnd hpdf hsub hw
    rw [runRows]
    rcases h : stepRow env row processed with _ | e | name
    · exact runRows_zip_inv env total rest processed dir events pages written
        hnd hpdf hsub hw
    · exact ⟨hnd, hpdf, hsub, hw⟩
    · have hname : jsEndsWith name ".pdf" = true := by
        rw [stepRow_render_eq h]
        exact endsPdf_pdfName ..
      refine runRows_zip_inv env total rest (processed + 1) (insertName dir name)
        (events ++ [⟨processed + 1, total, jsRoundPct (processed + 1) total⟩])
        (pages + 1) (written ++ [name]) (insertName_nodup hnd) ?_ ?_ ?_
      · intro f hf hpf
        rcases mem_insertName.mp hf with hfd | hfn
        · exact List.mem_append_left _ (hpdf f hfd hpf)
        · exact List.mem_append_right _ (by simp [hfn])
      · intro n hn
        rcases List.mem_append.mp hn with hnw | hnn
        · exact mem_insertName_left (hsub n hnw)
        · simp only [List.mem_singleton] at hnn
          rw [hnn]
          exact mem_insertName_self
      · intro n hn
        rcases List.mem_append.mp hn with hnw | hnn
        · exact hw n hnw
        · simp only [List.mem_singleton] at hnn
          rw [hnn]
          exact hname

/-! ## Claim theorems -/

/-- Claim C1 (amended): in `generateCards` (cardGenerator.ts, second
variant) the progress total is fixed at the start of the run as the count
of ALL parsed input rows — rows of unrenderable type included — and the
processed counter never exceeds this total at any broadcast point. -/
theorem c1_total_all_rows_ok (env : Env) (d : List String) (rows : List Row) :
    ∀ e ∈ (generateCards env true d rows).events,
      e.total = rows.length ∧ e.processed ≤ rows.length := by
  intro e he
  have hgen : generateCards env true d rows
      = runRows env rows.length rows 0
        (d.filter fun f => !(jsEndsWith f ".pdf" || jsEndsWith f ".zip"))
        [] 0 [] := rfl
  obtain ⟨k, hk, hev⟩ := runRows_events_spec env rows.length rows 0
    (d.filter fun f => !(jsEndsWith f ".pdf" || jsEndsWith f ".zip")) [] 0 []
  rw [hgen, hev, List.nil_append] at he
  obtain ⟨q, hq, rfl⟩ := List.mem_map.mp he
  have hq2 := List.mem_range'_1.mp hq
  refine ⟨rfl, ?_⟩
  show q ≤ rows.length
  omega

/-- Claim C1 counterexample: the claim as stated (total = count of rows
whose normalised type has a matching template) fails at a two-row input
whose first row has unrecognised type, where the broadcast total is 2 but
only one row is renderable-typed. -/
theorem c1_counterexample : ¬ claimC1Stated := by
  intro h
  have h2 := h envBase [] [rowUnknownType, rowCupom] ⟨1, 2, 50⟩ (by decide)
  exact absurd h2 (by decide)

/-- Claim C2 (confirmed): after each rendered row the counter increments
by one and a snapshot is broadcast with
`percentage = round(processed / total * 100)`; the processed components
form the consecutive sequence 1, 2, …; and a fully successful run's
final snapshot has `processed = total` (with percentage 100). -/
theorem c2_progress_stream_ok (env : Env) (d : List String) (rows : List Row) :
    (∀ e ∈ (generateCards env true d rows).events,
      e.percentage = jsRoundPct e.processed e.total) ∧
    ((generateCards env true d rows).events.map Progress.processed
      = List.range' 1 (generateCards env true d rows).events.length) ∧
    ((∀ r ∈ rows, rowRenders env r = true) →
      (generateCards env true d rows).events
        = (List.range' 1 rows.length).map (fun q => mkEv q rows.length)) ∧
    ((∀ r ∈ rows, rowRenders env r = true) → rows ≠ [] →
      (generateCards env true d rows).events.getLast?
        = some ⟨rows.length, rows.length, 100⟩) := by
  have hgen : generateCards env true d rows
      = runRows env rows.length rows 0
        (d.filter fun f => !(jsEndsWith f ".pdf" || jsEndsWith f ".zip"))
        [] 0 [] := rfl
  obtain ⟨k, hk, hev⟩ := runRows_events_spec env rows.length rows 0
    (d.filter fun f => !(jsEndsWith f ".pdf" || jsEndsWith f ".zip")) [] 0 []
  have hsucc : (∀ r ∈ rows, rowRenders env r = true) →
      (generateCards env true d rows).events
        = (List.range' 1 rows.length).map (fun q => mkEv q rows.length) := by
    intro hall
    obtain ⟨he, _⟩ := runRows_success env rows.length rows hall 0
      (d.filter fun f => !(jsEndsWith f ".pdf" || jsEndsWith f ".zip")) [] 0 []
    rw [hgen, he, List.nil_append]
  refine ⟨?_, ?_, hsucc, ?_⟩
  · intro e he
    rw [hgen, hev, List.nil_append] at he
    obtain ⟨q, _, rfl⟩ := List.mem_map.mp he
    rfl
  · rw [hgen, hev]
    simp only [List.nil_append, List.map_map, List.length_map,
      List.length_range']
    show List.map (fun q => q) (List.range' (0 + 1) k) = List.range' (0 + 1) k
    simp
  · intro hall hne
    have he := hsucc hall
    obtain ⟨m, hm⟩ : ∃ m, rows.length = m + 1 := by
      cases rows with
      | nil => exact absurd rfl hne
      | cons a t => exact ⟨t.length, rfl⟩
    rw [he, hm, List.range'_1_concat, List.map_append, List.map_cons,
      List.map_nil, List.getLast?_concat]
    have h1m : 1 + m = m + 1 := by omega
    rw [h1m]
    show some (mkEv (m + 1) (m + 1)) = _
    unfold mkEv
    rw [jsRoundPct_self (by omega)]

/-- Claim C2 witness: a one-row fully successful run broadcasts exactly
the snapshot (1, 1, 100), which is also the final snapshot. -/
theorem c2_progress_stream_ok_witness :
    ((⟨1, 1, 100⟩ : Progress) ∈ (generateCards envBase true [] [rowCupom]).events ∧
     (⟨1, 1, 100⟩ : Progress).percentage
       = jsRoundPct (⟨1, 1, 100⟩ : Progress).processed (⟨1, 1, 100⟩ : Progress).total) ∧
    (∀ r ∈ ([rowCupom] : List Row), rowRenders envBase r = true) ∧
    (generateCards envBase true [] [rowCupom]).events.getLast?
      = some ⟨([rowCupom] : List Row).length, ([rowCupom] : List Row).length, 100⟩ :=
  ⟨⟨by decide,
    (c2_progress_stream_ok envBase [] [rowCupom]).1 ⟨1, 1, 100⟩ (by decide)⟩,
   by decide,
   (c2_progress_stream_ok envBase [] [rowCupom]).2.2.2 (by decide) (by decide)⟩

/-- Claim C1 witness for the amended statement: in the same two-row run
the only snapshot is (1, 2, 50); its total is the full row count 2 and
its processed stays below it. -/
theorem c1_total_all_rows_ok_witness :
    (⟨1, 2, 50⟩ : Progress)
      ∈ (generateCards envBase true [] [rowUnknownType, rowCupom]).events ∧
    ((⟨1, 2, 50⟩ : Progress).total
        = ([rowUnknownType, rowCupom] : List Row).length ∧
     (⟨1, 2, 50⟩ : Progress).processed
        ≤ ([rowUnknownType, rowCupom] : List Row).length) :=
  ⟨by decide,
   c1_total_all_rows_ok envBase [] [rowUnknownType, rowCupom] ⟨1, 2, 50⟩
     (by decide)⟩

/-- Claim C3 (amended): both normalisers lower-case, trim and strip
diacritics, then classify by first match in the priority order
promotion-keyword → coupon-keyword → price-drop-keyword followed by a
"bc" fallback — exact match in the standalone/part_001 function,
substring containment in the class method — with NO cashback-keyword
branch; no match yields the empty (unrecognised) result. -/
theorem c3_classifier_ok :
    (∀ s, normalizeType s
      = if s = "" then "" else priorityClassify (normKey s) false) ∧
    (∀ s, CardGenerator.normalizeType s
      = if s = "" then "" else priorityClassify (normKey s) true) ∧
    CardGenerator.normalizeType "abc" = "bc" ∧ normalizeType "abc" = "" ∧
    normalizeType " Promoção" = "promocao" ∧
    CardGenerator.normalizeType "Cupôm" = "cupom" := by
  refine ⟨?_, ?_, by decide, by decide, by decide, by decide⟩ <;>
    · intro s
      by_cases hs : s = ""
      · simp [normalizeType, CardGenerator.normalizeType, hs]
      · simp only [normalizeType, CardGenerator.normalizeType, hs, if_neg,
          if_false]
        cases h1 : jsIncludes (normKey s) "promo" <;>
        cases h2 : jsIncludes (normKey s) "cupom" <;>
        cases h3 : jsIncludes (normKey s) "queda" <;>
          simp [priorityClassify, keywordTable, List.find?, h1, h2, h3]

/-- Claim C3 counterexample: no variant has a cashback branch — the
input "cashback" is unrecognised by the code but classified by the
claim's priority order. -/
theorem c3_counterexample : ¬ claimC3Stated := by
  intro h
  exact absurd (h "cashback").1 (by decide)

/-- Claim C4 (amended): an EMPTY (or whitespace-only) logo reference
falls back to the blank placeholder, whose inline data URL is embedded
whenever `blank.png` exists in the logo store; but a non-empty reference
to a non-existent file substitutes the empty string. -/
theorem c4_blank_fallback_ok (env : Env) (row : Row) :
    (jsTrim row.logo = "" →
      logoValue env row = imageToBase64 env (pathJoin LOGOS_DIR "blank.png")) ∧
    (∀ content, jsTrim row.logo = "" →
      env.lookup (pathJoin LOGOS_DIR "blank.png") = some (FsNode.file content) →
      logoValue env row
        = Except.ok (dataUrl (pathJoin LOGOS_DIR "blank.png") content)) ∧
    ((env.lookup (pathJoin LOGOS_DIR (logoFileName row))).isNone →
      logoValue env row = Except.ok "") := by
  refine ⟨?_, ?_, ?_⟩
  · intro h
    unfold logoValue logoFileName
    rw [if_pos h]
  · intro content h hl
    unfold logoValue logoFileName
    rw [if_pos h]
    unfold imageToBase64
    rw [if_neg (pathJoin_ne_empty LOGOS_DIR "blank.png" (by decide)), hl]
  · intro h
    rw [Option.isNone_iff_eq_none] at h
    unfold logoValue imageToBase64
    rw [if_neg (pathJoin_ne_empty LOGOS_DIR (logoFileName row) (by decide)), h]

/-- Claim C4 witness: a row with empty logo embeds the blank asset. -/
theorem c4_blank_fallback_ok_witness :
    jsTrim rowCupom.logo = "" ∧
    logoValue envBase rowCupom
      = imageToBase64 envBase (pathJoin LOGOS_DIR "blank.png") :=
  ⟨by decide, (c4_blank_fallback_ok envBase rowCupom).1 (by decide)⟩

/-- Claim C4 counterexample: with `blank.png` present but the row's
`missing.png` absent, the substituted logo value is the empty string,
not the blank placeholder's data URL. -/
theorem c4_counterexample : ¬ claimC4Stated := by
  intro h
  have h2 := h envBase rowMissingLogo (Or.inr (by decide))
  exact absurd h2 (by decide)

/-- Claim C5 (amended): in cardGenerator.ts the rule holds as stated —
promotion values pass through verbatim and every percent sign is
stripped for other types; the part_001 variant instead upper-cases and
trims promotion values and routes other types through
`formatPercentage`, which strips only the FIRST percent sign of a
non-numeric value. -/
theorem c5_value_rule_ok :
    (∀ v, valorFinal "promocao" v = v) ∧
    (∀ t v, t ≠ "promocao" → '%' ∉ (valorFinal t v).data) ∧
    (∀ v, Part001.valorFinal "promocao" v = Part001.upper v) ∧
    Part001.valorFinal "cupom" "50%%" = "50%" := by
  refine ⟨fun v => by simp [valorFinal], ?_,
    fun v => by simp [Part001.valorFinal], by decide⟩
  intro t v ht
  simp [valorFinal, ht, removeAllPercent]

/-- Claim C5 witness: a coupon-type value loses its percent sign. -/
theorem c5_value_rule_ok_witness :
    ("cupom" : String) ≠ "promocao" ∧ '%' ∉ (valorFinal "cupom" "50%").data :=
  ⟨by decide, c5_value_rule_ok.2.1 "cupom" "50%" (by decide)⟩

/-- Claim C5 counterexample: part_001 upper-cases promotion values, so
"abc" does not pass through unmodified. -/
theorem c5_counterexample : ¬ claimC5Stated := by
  intro h
  have h2 := ((h "promocao" "abc").1 rfl).2
  exact absurd h2 (by decide)

/-- Claim C6 (amended): artifacts are named
`{order}_{type}.pdf` when the category slug is empty and
`{order}_{type}_{slug}.pdf` otherwise, with order defaulting to one plus
the number of previously rendered rows; there is no "no category"
sentinel, so the first CUPOM row with empty category yields
`1_cupom.pdf` (and `1_CUPOM_.pdf` under the part_001 naming, which
always keeps three segments). -/
theorem c6_artifact_naming_ok :
    (∀ (row : Row) (n : Nat) (t : String),
      (categoriaFinal row = "" →
        pdfName row n t = ordemFinal row n ++ "_" ++ t ++ ".pdf") ∧
      (jsTrim row.ordem = "" → ordemFinal row n = toString (n + 1))) ∧
    (generateCards envBase true [] [rowCupom]).written = ["1_cupom.pdf"] ∧
    Part001.pdfName rowCupom 0 "cupom" = "1_CUPOM_.pdf" := by
  refine ⟨fun row n t => ⟨fun h => by simp [pdfName, h],
    fun h => by simp [ordemFinal, h]⟩, by decide, by decide⟩

/-- Claim C6 witness: the naming rule applied to the first CUPOM row. -/
theorem c6_artifact_naming_ok_witness :
    categoriaFinal rowCupom = "" ∧
    pdfName rowCupom 0 "cupom" = ordemFinal rowCupom 0 ++ "_" ++ "cupom" ++ ".pdf" :=
  ⟨by decide, (c6_artifact_naming_ok.1 rowCupom 0 "cupom").1 (by decide)⟩

/-- Claim C6 counterexample: the first rendered CUPOM row with empty
category is written as `1_cupom.pdf`, not `1_cupom_sem-categoria.pdf`. -/
theorem c6_counterexample : ¬ claimC6Stated := by
  intro h
  exact absurd (h envBase (by decide)) (by decide)

/-- Claim C7 (amended): the archive holds exactly one entry per DISTINCT
output filename among the successfully rendered rows (rows colliding on
order/type/category overwrite each other and collapse to one entry), and
zero entries from prior runs, since `.pdf`/`.zip` artifacts are purged
at run start. -/
theorem c7_archive_entries_ok (env : Env) (dInit : List String)
    (rows : List Row) (hnd : dInit.Nodup) :
    (zipEntries (generateCards env true dInit rows)).Nodup ∧
    (∀ f ∈ zipEntries (generateCards env true dInit rows),
      f ∈ (generateCards env true dInit rows).written) ∧
    (∀ n ∈ (generateCards env true dInit rows).written,
      n ∈ zipEntries (generateCards env true dInit rows)) := by
  have hgen : generateCards env true dInit rows
      = runRows env rows.length rows 0
        (dInit.filter fun f => !(jsEndsWith f ".pdf" || jsEndsWith f ".zip"))
        [] 0 [] := rfl
  have h0 : (dInit.filter
      fun f => !(jsEndsWith f ".pdf" || jsEndsWith f ".zip")).Nodup :=
    hnd.filter _
  have h1 : ∀ f ∈ dInit.filter
      (fun f => !(jsEndsWith f ".pdf" || jsEndsWith f ".zip")),
      jsEndsWith f ".pdf" = true → f ∈ ([] : List String) := by
    intro f hf hp
    have h2 := (List.mem_filter.mp hf).2
    rw [hp] at h2
    simp at h2
  obtain ⟨hI1, hI2, hI3, hI4⟩ := runRows_zip_inv env rows.length rows 0
    (dInit.filter fun f => !(jsEndsWith f ".pdf" || jsEndsWith f ".zip"))
    [] 0 [] h0 h1 (by simp) (by simp)
  rw [hgen]
  unfold zipEntries
  refine ⟨hI1.filter _, ?_, ?_⟩
  · intro f hf
    have h3 := List.mem_filter.mp hf
    exact hI2 f h3.1 h3.2
  · intro n hn
    exact List.mem_filter.mpr ⟨hI3 n hn, hI4 n hn⟩

/-- Claim C7 witness: a stale-artifact directory plus a colliding
two-row run still yields duplicate-free archive entries. -/
theorem c7_archive_entries_ok_witness :
    (["old.pdf", "keep.txt"] : List String).Nodup ∧
    (zipEntries (generateCards envBase true ["old.pdf", "keep.txt"]
      [rowOrdem7, rowOrdem7])).Nodup :=
  ⟨by decide,
   (c7_archive_entries_ok envBase ["old.pdf", "keep.txt"]
     [rowOrdem7, rowOrdem7] (by decide)).1⟩

/-- Claim C7 counterexample: two successfully rendered rows that collide
on the same computed filename leave a single archive entry, so the
archive does not have exactly one entry per rendered row. -/
theorem c7_counterexample : ¬ claimC7Stated := by
  intro h
  have h2 := h envBase ["old.pdf", "keep.txt"] [rowOrdem7, rowOrdem7] (by decide)
  exact absurd h2 (by decide)

/-- Claim C8 (amended): a run whose rows are all skipped (in particular
an empty workbook) emits no progress events, opens no rendering context
and writes no artifact — but it does NOT short-circuit with a distinct
empty-input outcome: it still returns the archive path as an ordinary
success. -/
theorem c8_degenerate_run_ok (env : Env) (d : List String) (rows : List Row)
    (h : ∀ r ∈ rows, rowSkipped env r) :
    (generateCards env true d rows).result
      = Except.ok (pathJoin OUTPUT_DIR "cards.zip") ∧
    (generateCards env true d rows).events = [] ∧
    (generateCards env true d rows).pages = 0 ∧
    (generateCards env true d rows).written = [] := by
  have hgen : generateCards env true d rows
      = runRows env rows.length rows 0
        (d.filter fun f => !(jsEndsWith f ".pdf" || jsEndsWith f ".zip"))
        [] 0 [] := rfl
  rw [hgen, runRows_all_skip env rows.length rows h 0 _ [] 0 []]
  exact ⟨rfl, rfl, rfl, rfl⟩

/-- Claim C8 witness: a one-row run whose row has unrecognised type. -/
theorem c8_degenerate_run_ok_witness :
    (∀ r ∈ ([rowUnknownType] : List Row), rowSkipped envBase r) ∧
    (generateCards envBase true [] [rowUnknownType]).events = [] :=
  ⟨by decide, (c8_degenerate_run_ok envBase [] [rowUnknownType] (by decide)).2.1⟩

/-- Claim C8 counterexample: a zero-row run returns the archive path as
a plain success, not a distinct empty-input outcome. -/
theorem c8_counterexample : ¬ claimC8Stated := by
  intro h
  exact h envBase [] (by decide)

/-- Claim C9 (code bug evaluated): the seal lookup is the fixed
two-entry map nova/renovada, and any other value yields the EMPTY file
name — but then `path.join(SELOS_DIR, "")` is the seals directory
itself, which passes `existsSync` and makes `readFileSync` raise EISDIR,
aborting the run with no progress emitted (the other two variants guard
this case and resolve to no seal). -/
theorem c9_selo_eisdir_bug :
    seloFileName "nova" = "acaonova.png" ∧
    seloFileName "renovada" = "acaorenovada.png" ∧
    seloFileName "x" = "" ∧
    pathJoin SELOS_DIR (seloFileName "x") = SELOS_DIR ∧
    seloValue envSelos rowSeloOther = Except.error "EISDIR" ∧
    (generateCards envSelos true [] [rowSeloOther]).result
      = Except.error "EISDIR" ∧
    (generateCards envSelos true [] [rowSeloOther]).events = [] := by
  decide

/-- Claim C10 (confirmed): calling `generateCards` with no initialised
browser fails immediately with the not-initialized error, before the
purge or any other filesystem mutation — the output directory contents
are returned untouched and nothing is written, emitted or rendered. -/
theorem c10_browser_guard_ok (env : Env) (d : List String) (rows : List Row) :
    (generateCards env false d rows).result
      = Except.error "Browser not initialized" ∧
    (generateCards env false d rows).outDir = d ∧
    (generateCards env false d rows).events = [] ∧
    (generateCards env false d rows).pages = 0 ∧
    (generateCards env false d rows).written = [] :=
  ⟨rfl, rfl, rfl, rfl, rfl⟩

end CardsTrade
